import Mathlib

/-!
Verification of the `CustomConsole` component from `packages/jest-util/src/Console.js`
(the current version of the file; the older concatenated revision is superseded).

The embedding models:
* JavaScript values (as far as `console.table` consumes them) and
  `JSON.stringify` on them;
* the stateful console: group level, per-label counters, the lines written
  to the sink, and an `errored` flag modelling an uncaught JavaScript
  exception (`String.prototype.repeat` with a negative count throws a
  `RangeError`; calling `.replace` on `undefined` throws a `TypeError`),
  after which no further call of the caller runs;
* the `_counts` plain object together with its `Object.prototype` chain:
  a label naming an inherited member (`toString`, `hasOwnProperty`, …)
  reads truthy, so `count` skips initialisation and the `++` stores `NaN`;
  the inherited `__proto__` accessor discards non-object assignments;
* `console.table`'s full layout pipeline: key/value width computation,
  the window-fitting loop, padding/truncation and row rendering.

`util.format` (the variadic message formatter of `log`/`info`/`warn`/
`error`/`assert`) is abstracted as the already-formatted message string:
no claim depends on its internals, only on both paths receiving the same
string. The `_formatBuffer` hook is kept as an explicit function
parameter `fmt` (its source default is `(type, message) => message`).
-/

namespace JestConsole

/-- JavaScript repetition `s.repeat n` for a non-negative count (JavaScript `String.prototype.repeat`). -/
def repeatStr (s : String) : Nat → String
  | 0 => ""
  | n + 1 => s ++ repeatStr s n

/-- JavaScript `s.repeat(n)` with an `Int` count: a negative count throws a
`RangeError`, modelled as `none`. -/
def jsRepeat (s : String) (n : Int) : Option String :=
  if 0 ≤ n then some (repeatStr s n.toNat) else none

theorem repeatStr_length (s : String) (n : Nat) :
    (repeatStr s n).length = n * s.length := by
  induction n with
  | zero => simp [repeatStr]
  | succ n ih => simp [repeatStr, String.length_append, ih, Nat.succ_mul, Nat.add_comm]

/-- JavaScript values, as far as `console.table` consumes them.  Numbers are
modelled as integers (all claims use integral numbers); `obj` holds the own
enumerable string-keyed properties in enumeration order (distinct keys in a
real JavaScript object). -/
inductive JSValue where
  | null
  | undefined
  | bool (b : Bool)
  | num (n : Int)
  | str (s : String)
  | arr (elems : List JSValue)
  | obj (fields : List (String × JSValue))

/-- One character of JSON string escaping. -/
def jsonEscapeChar (c : Char) : String :=
  if c = '"' then "\\\""
  else if c = '\\' then "\\\\"
  else if c = '\n' then "\\n"
  else if c = '\t' then "\\t"
  else if c = '\r' then "\\r"
  else String.singleton c

/-- JSON string quoting, as `JSON.stringify` performs on strings and keys. -/
def jsonQuote (s : String) : String :=
  "\"" ++ String.join (s.data.map jsonEscapeChar) ++ "\""

mutual

/-- Model of `JSON.stringify(value)` (compact form, no spacing).  Returns `none` where
JavaScript returns `undefined` (top-level `undefined`). -/
def jsonStringify : JSValue → Option String
  | .undefined => none
  | .null => some "null"
  | .bool true => some "true"
  | .bool false => some "false"
  | .num n => some (toString n)
  | .str s => some (jsonQuote s)
  | .arr es => some ("[" ++ String.intercalate "," (jsonArrElems es) ++ "]")
  | .obj fs => some ("\x7b" ++ String.intercalate "," (jsonObjFields fs) ++ "\x7d")

/-- Array elements: an element stringifying to `undefined` renders as `null`. -/
def jsonArrElems : List JSValue → List String
  | [] => []
  | e :: es =>
    (match jsonStringify e with
     | some s => s
     | none => "null") :: jsonArrElems es

/-- Object fields: a field whose value stringifies to `undefined` is skipped. -/
def jsonObjFields : List (String × JSValue) → List String
  | [] => []
  | (k, v) :: fs =>
    match jsonStringify v with
    | some s => (jsonQuote k ++ ":" ++ s) :: jsonObjFields fs
    | none => jsonObjFields fs

end

/-- The `.replace(/\n/g, '')` step: strip newline characters. -/
def stripNL (s : String) : String := String.mk (s.data.filter (fun c => c ≠ '\n'))

/-- The local `stringify` helper of `table`:
`value => JSON.stringify(value).replace(/\n/g, '')`.  When `JSON.stringify`
returns `undefined`, the `.replace` call throws a `TypeError`, modelled as
`none`. -/
def stringify (v : JSValue) : Option String := (jsonStringify v).map stripNL

/-- JavaScript `s.substring(0, n)`: the first `n` characters of `s`. -/
def takeChars (s : String) (n : Nat) : String := String.mk (s.data.take n)

/-- The local `pad` helper of `table`: right-pad `s` with spaces to `width`,
or truncate (`substring(0, width)`, clamping a negative bound to `0`) when it
is longer. -/
def pad (s : String) (width : Int) : String :=
  if (s.length : Int) > width then takeChars s width.toNat
  else s ++ repeatStr " " (width - (s.length : Int)).toNat

/-- The local `max` helper of `table`, applied to the lengths list: a fold of
`Math.max` starting from `-Infinity`; `none` is the `-Infinity` of the empty
collection. -/
def jsMaxLen (l : List Nat) : Option Nat :=
  l.foldl (fun acc n => some (match acc with | none => n | some m => max m n)) none

/-- The step `Math.max(o, n)` where `o` may be the `-Infinity` result of an empty fold. -/
def jsMaxWith (o : Option Nat) (n : Nat) : Nat :=
  match o with
  | none => n
  | some m => max m n

/-- Model of `Object.keys(data)`: index strings for an array, field names for an object,
in enumeration order. -/
def tableKeys : JSValue → List String
  | .arr es => (List.range es.length).map (fun i => toString i)
  | .obj fs => fs.map (fun kv => kv.1)
  | _ => []

/-- Model of `Object.values(data)`. -/
def tableValues : JSValue → List JSValue
  | .arr es => es
  | .obj fs => fs.map (fun kv => kv.2)
  | _ => []

/-- The window-fitting loop of `table`:
`while (totalTableWidth > outWidth) { if (valueWidth > keyWidth) valueWidth--
else keyWidth--; totalTableWidth = keyWidth + valueWidth + 7 }`.
Returns the final `(keyWidth, valueWidth)`. -/
def fitLoop (outWidth : Int) (keyWidth valueWidth : Int) : Int × Int :=
  if keyWidth + valueWidth + 7 > outWidth then
    if valueWidth > keyWidth then fitLoop outWidth keyWidth (valueWidth - 1)
    else fitLoop outWidth (keyWidth - 1) valueWidth
  else (keyWidth, valueWidth)
termination_by (keyWidth + valueWidth + 7 - outWidth).toNat
decreasing_by
  all_goals
    simp_wf
    omega

/-- The pre-fit column widths of `table`:
`keyWidth = Math.max(maxKeyLen, '(index)'.length)` where `maxKeyLen` measures
the raw key strings, and `valueWidth = Math.max(maxValueWidth, 'Value'.length)`
where `maxValueWidth` measures the stringified values. -/
def preWidths (keys : List String) (valStrs : List String) : Int × Int :=
  (jsMaxWith (jsMaxLen (keys.map String.length)) "(index)".length,
   jsMaxWith (jsMaxLen (valStrs.map String.length)) "Value".length)

/-- The fitted column widths of `table` for the given keys and stringified
values. -/
def tableWidthsFrom (outWidth : Int) (keys valStrs : List String) : Int × Int :=
  fitLoop outWidth (preWidths keys valStrs).1 (preWidths keys valStrs).2

/-- Rendering of the table body once the widths are fitted.  Returns the lines
passed to `this.log` in order, and whether a `RangeError` was thrown
(by `repeat` on a negative count) after the listed lines were already
emitted. -/
def renderTable (keyWidth valueWidth : Int) (keys valStrs : List String) :
    List String × Bool :=
  let totalTableWidth := keyWidth + valueWidth + 7
  match jsRepeat "_" totalTableWidth with
  | none => ([], true)
  | some top =>
    let header := "| " ++ pad "(index)" keyWidth ++ " | " ++ pad "Value" valueWidth ++ " |"
    match jsRepeat "-" (keyWidth + 2), jsRepeat "-" (valueWidth + 2) with
    | some d1, some d2 =>
      let sep := "|" ++ d1 ++ "|" ++ d2 ++ "|"
      let rows := (keys.zip valStrs).map
        (fun kv => "| " ++ pad kv.1 keyWidth ++ " | " ++ pad kv.2 valueWidth ++ " |")
      match jsRepeat "‾" totalTableWidth with
      | some bottom => ([top, header, sep] ++ rows ++ [bottom], false)
      | none => ([top, header, sep] ++ rows, true)
    | _, _ => ([top, header], true)

/-- Model of `console.table(data)` at window width `outWidth`: the lines passed to
`this.log` in order, paired with whether the call threw
(`TypeError` from stringifying a value to `undefined`, or `RangeError` from a
negative repeat count).  A non-object input (`!data || typeof data !==
'object'`) returns immediately with no output. -/
def tableLines (outWidth : Int) (data : JSValue) : List String × Bool :=
  match data with
  | .arr _ | .obj _ =>
    match (tableValues data).mapM stringify with
    | none => ([], true)
    | some valStrs =>
      let keys := tableKeys data
      let w := tableWidthsFrom outWidth keys valStrs
      renderTable w.1 w.2 keys valStrs
  | _ => ([], false)

/-- The levels of `_log`. -/
inductive LogType where
  | log
  | info
  | warn
  | error
  deriving Repr, DecidableEq

/-- A numeric value stored as an own property of the `_counts` object: a
natural count or JavaScript `NaN` (the result of incrementing an inherited
function). -/
inductive StoredNum where
  | nan
  | num (n : Nat)
  deriving Repr, DecidableEq

/-- Successor under the JavaScript `++` operator: `NaN + 1` is `NaN`. -/
def StoredNum.succ : StoredNum → StoredNum
  | .nan => .nan
  | .num n => .num (n + 1)

/-- The function-valued own members of `Object.prototype`, inherited by the
plain object literal that backs `this._counts`. -/
def protoFnNames : List String :=
  ["constructor", "hasOwnProperty", "isPrototypeOf", "propertyIsEnumerable",
   "toLocaleString", "toString", "valueOf", "__defineGetter__",
   "__defineSetter__", "__lookupGetter__", "__lookupSetter__"]

/-- The possible results of the property read `this._counts[label]`: an own
stored value, an inherited `Object.prototype` function, `Object.prototype`
itself (via the inherited `__proto__` getter), or `undefined`. -/
inductive CountRead where
  | undefined
  | stored (v : StoredNum)
  | protoFn
  | protoObj
  deriving Repr, DecidableEq

/-- JavaScript truthiness of the read value: `undefined`, `0` and `NaN` are
falsy; functions and objects are truthy. -/
def CountRead.truthy : CountRead → Bool
  | .undefined => false
  | .stored .nan => false
  | .stored (.num n) => !(n == 0)
  | .protoFn => true
  | .protoObj => true

/-- JavaScript `ToNumber` of the read value, as applied by `++`: functions and
plain objects coerce to `NaN`. -/
def CountRead.toNum : CountRead → StoredNum
  | .stored v => v
  | .undefined => .nan
  | .protoFn => .nan
  | .protoObj => .nan

/-- String interpolation of the read value in the template literal.  The
`protoFn` arm (a native function's source text) is unreachable from `count`:
the increment's assignment always shadows an inherited function before the
message re-reads the property, except for `__proto__`, whose read yields
`protoObj`. -/
def CountRead.display : CountRead → String
  | .stored (.num n) => toString n
  | .stored .nan => "NaN"
  | .undefined => "undefined"
  | .protoFn => "function () \x7b [native code] \x7d"
  | .protoObj => "[object Object]"

/-- Own-property lookup on the `_counts` object. -/
def ownLookup (cs : List (String × StoredNum)) (l : String) : Option StoredNum :=
  match cs with
  | [] => none
  | p :: rest => if p.1 == l then some p.2 else ownLookup rest l

/-- Create or overwrite an own property. -/
def setOwn (cs : List (String × StoredNum)) (l : String) (v : StoredNum) :
    List (String × StoredNum) :=
  match cs with
  | [] => [(l, v)]
  | p :: rest => if p.1 == l then (l, v) :: rest else p :: setOwn rest l v

/-- Model of the assignment `this._counts[label] = v`: creates or overwrites
the own property — except `__proto__`, whose inherited setter silently
discards a non-object value. -/
def jsSetCount (cs : List (String × StoredNum)) (l : String) (v : StoredNum) :
    List (String × StoredNum) :=
  if l == "__proto__" then cs else setOwn cs l v

/-- Model of the read `this._counts[label]`, prototype chain included: an own
property wins; otherwise an inherited `Object.prototype` member is found for
its member names, and `undefined` for every other label. -/
def readCount (cs : List (String × StoredNum)) (l : String) : CountRead :=
  match ownLookup cs l with
  | some v => .stored v
  | none =>
    if protoFnNames.contains l then .protoFn
    else if l == "__proto__" then .protoObj
    else .undefined

/-- The own stored count of a label, a missing or `NaN` entry read as `0`. -/
def ownNat (cs : List (String × StoredNum)) (l : String) : Nat :=
  match ownLookup cs l with
  | some (.num n) => n
  | _ => 0

/-- A label that names no `Object.prototype` member, so that the `_counts`
read for it sees only own properties. -/
def cleanLabel (l : String) : Bool :=
  !(protoFnNames.contains l) && !(l == "__proto__")

/-- The state change of `count` on the `_counts` object:
`if (!this._counts[label]) { this._counts[label] = 0; }` followed by
`this._counts[label]++` (read, coerce to number, add one, assign). -/
def countStep (cs : List (String × StoredNum)) (lbl : String) :
    List (String × StoredNum) :=
  let cs1 := if (readCount cs lbl).truthy then cs else jsSetCount cs lbl (.num 0)
  jsSetCount cs1 lbl ((readCount cs1 lbl).toNum.succ)

/-- The count shown in the emitted message: the template literal re-reads
`this._counts[label]` after the increment. -/
def countShown (cs : List (String × StoredNum)) (lbl : String) : String :=
  (readCount (countStep cs lbl) lbl).display

/-- The mutable state of a `CustomConsole`, together with the lines written to
the sink (`output`, each tagged with its level) and an `errored` flag: once a
call throws an uncaught exception, no further call of the caller runs, so
every operation freezes the state when `errored` is set.  `counts` holds the
own properties of the plain `_counts` object in insertion order; reads also
see the `Object.prototype` chain (see `readCount`). -/
structure ConsoleState where
  groupLevel : Int
  counts : List (String × StoredNum)
  output : List (LogType × String)
  errored : Bool
  deriving Repr, DecidableEq

/-- The state of a freshly constructed console. -/
def initState : ConsoleState :=
  { groupLevel := 0, counts := [], output := [], errored := false }

/-- A formatter hook `_formatBuffer`; the constructor default. -/
def idFmt : LogType → String → String := fun _ message => message

/-- Model of `_generateIndentation()`: `'> '.repeat(this._groupLevel)`; throws a
`RangeError` when the level is negative. -/
def generateIndentation (lvl : Int) : Option String := jsRepeat "> " lvl

/-- Model of `_log(type, message)`: prepend the indentation, apply the formatter and
append the line to the sink; a negative group level makes the `repeat` throw,
which is modelled by setting `errored`. -/
def logLine (fmt : LogType → String → String) (type : LogType) (message : String)
    (st : ConsoleState) : ConsoleState :=
  if st.errored then st
  else
    match generateIndentation st.groupLevel with
    | none => { st with errored := true }
    | some ind => { st with output := st.output ++ [(type, ind ++ fmt type message)] }

/-- Models `log`/`info`/`warn`/`error`: `this._log(type, format.apply(null, arguments))`,
with the formatted message abstracted as `message`. -/
def leveled (fmt : LogType → String → String) (type : LogType) (message : String)
    (st : ConsoleState) : ConsoleState :=
  logLine fmt type message st

/-- Model of `assert(assertion, ...args)`: `if (!assertion) this.log(...args)`. -/
def assertOp (fmt : LogType → String → String) (assertion : Bool) (message : String)
    (st : ConsoleState) : ConsoleState :=
  if st.errored then st
  else if !assertion then leveled fmt .log message st else st

/-- Model of `count(label = '<no label>')` over the plain-object `_counts`
with its `Object.prototype` chain: initialise when the read is falsy,
increment (`countStep`), then `_log` the line `label: <re-read value>`.  A
label naming an inherited member reads truthy, skips the init, and stores
`NaN`; `__proto__` additionally discards the write. -/
def countOp (fmt : LogType → String → String) (label : Option String)
    (st : ConsoleState) : ConsoleState :=
  if st.errored then st
  else
    let lbl := label.getD "<no label>"
    logLine fmt .log (lbl ++ ": " ++ countShown st.counts lbl)
      { st with counts := countStep st.counts lbl }

/-- Model of `group(label?)`: increment the level, then log the label if it is truthy
(a missing label and the empty string are falsy). -/
def groupOp (fmt : LogType → String → String) (label : Option String)
    (st : ConsoleState) : ConsoleState :=
  if st.errored then st
  else
    let st' := { st with groupLevel := st.groupLevel + 1 }
    match label with
    | some l => if l ≠ "" then leveled fmt .log l st' else st'
    | none => st'

/-- Model of `groupCollapsed()` as written in the source: the signature takes no
parameter, so any label argument the caller passes is discarded, and the body
is `this.group()`. -/
def groupCollapsedOp (fmt : LogType → String → String) (_label : Option String)
    (st : ConsoleState) : ConsoleState :=
  groupOp fmt none st

/-- Model of `groupEnd()`: decrement the level. -/
def groupEndOp (st : ConsoleState) : ConsoleState :=
  if st.errored then st else { st with groupLevel := st.groupLevel - 1 }

/-- Model of the `table(data)` call: render the lines and pass each to `this.log`; if the
rendering threw after some lines, those lines were already written and the
exception then propagates. -/
def tableOp (fmt : LogType → String → String) (outWidth : Int) (data : JSValue)
    (st : ConsoleState) : ConsoleState :=
  if st.errored then st
  else
    let r := tableLines outWidth data
    let st' := r.1.foldl (fun s l => leveled fmt .log l s) st
    if r.2 then { st' with errored := true } else st'

/-- The calls a caller can make, for reasoning about call sequences.
`emit t msg` covers `log`/`info`/`warn`/`error` with their formatted
message. -/
inductive Op where
  | group (label : Option String)
  | groupCollapsed (label : Option String)
  | groupEnd
  | emit (type : LogType) (message : String)
  | assert (assertion : Bool) (message : String)
  | count (label : Option String)
  | table (data : JSValue)

/-- Interpret one call. -/
def applyOp (fmt : LogType → String → String) (outWidth : Int) :
    Op → ConsoleState → ConsoleState
  | .group label, st => groupOp fmt label st
  | .groupCollapsed label, st => groupCollapsedOp fmt label st
  | .groupEnd, st => groupEndOp st
  | .emit type message, st => leveled fmt type message st
  | .assert b message, st => assertOp fmt b message st
  | .count label, st => countOp fmt label st
  | .table data, st => tableOp fmt outWidth data st

/-- Run a sequence of calls from a state. -/
def run (fmt : LogType → String → String) (outWidth : Int) (ops : List Op)
    (st : ConsoleState) : ConsoleState :=
  ops.foldl (fun s op => applyOp fmt outWidth op s) st

/-- The group-level change of one call: `+1` for `group`/`groupCollapsed`,
`-1` for `groupEnd`, `0` otherwise. -/
def depthOp : Op → Int
  | .group _ => 1
  | .groupCollapsed _ => 1
  | .groupEnd => -1
  | _ => 0

/-- Number of `group`/`groupCollapsed` calls minus number of `groupEnd` calls
in a sequence. -/
def depth (ops : List Op) : Int := (ops.map depthOp).sum

/-- Returns `1` when the call is `count` with (defaulted) label `lbl`, else `0`. -/
def countsOfOp (lbl : String) : Op → Nat
  | .count label => if label.getD "<no label>" = lbl then 1 else 0
  | _ => 0

/-- Number of `count` calls in a sequence whose (defaulted) label is `lbl`. -/
def countCalls (lbl : String) (ops : List Op) : Nat :=
  (ops.map (countsOfOp lbl)).sum

/-- Spec-side key-column width: the raw length of each key, floored at the
length of the header label `"(index)"`. -/
def specKeyWidth (keys : List String) : Nat :=
  max "(index)".length ((keys.map String.length).foldl max 0)

/-- Spec-side value-column width: the length of each value's structural
(compact-JSON) encoding, floored at the length of the header label
`"Value"`. -/
def specValueWidth (valStrs : List String) : Nat :=
  max "Value".length ((valStrs.map String.length).foldl max 0)

/-- Whether a call sequence contains no `table` call. -/
def noTable : List Op → Bool
  | [] => true
  | .table _ :: _ => false
  | _ :: ops => noTable ops

/-- Whether, starting from group level `lvl`, the group level stays
non-negative after every call of the sequence. -/
def depthsOk (lvl : Int) : List Op → Bool
  | [] => true
  | op :: ops => decide (0 ≤ lvl + depthOp op) && depthsOk (lvl + depthOp op) ops

/-! ### Basic lemmas about the embedding -/

theorem fitLoop_eq (o k v : Int) :
    fitLoop o k v =
      if k + v + 7 > o then
        (if v > k then fitLoop o k (v - 1) else fitLoop o (k - 1) v)
      else (k, v) := by
  rw [fitLoop]

/-- The fitting loop only exits when the total width no longer exceeds the
window width, so the final total always satisfies the bound. -/
theorem fitLoop_total_le (o k v : Int) :
    (fitLoop o k v).1 + (fitLoop o k v).2 + 7 ≤ o := by
  refine fitLoop.induct o
    (fun a c => (fitLoop o a c).1 + (fitLoop o a c).2 + 7 ≤ o) ?_ ?_ ?_ k v
  · intro a c h1 h2 ih
    rw [fitLoop_eq, if_pos h1, if_pos h2]; exact ih
  · intro a c h1 h2 ih
    rw [fitLoop_eq, if_pos h1, if_neg h2]; exact ih
  · intro a c h1
    rw [fitLoop_eq, if_neg h1]; simp; omega

/-- Lower bound preserved by the fitting loop: when the window width exceeds
`2 * b + 6`, widths starting at or above `b` never drop below `b` (the loop
always decrements the larger width, and the loop condition bounds the sum). -/
theorem fitLoop_lb (b o : Int) (hb : 2 * b + 6 < o) (k v : Int)
    (hk : b ≤ k) (hv : b ≤ v) :
    b ≤ (fitLoop o k v).1 ∧ b ≤ (fitLoop o k v).2 := by
  refine fitLoop.induct o
    (fun a c => b ≤ a → b ≤ c → b ≤ (fitLoop o a c).1 ∧ b ≤ (fitLoop o a c).2)
    ?_ ?_ ?_ k v hk hv
  · intro a c h1 h2 ih ha hc
    rw [fitLoop_eq, if_pos h1, if_pos h2]
    exact ih ha (by omega)
  · intro a c h1 h2 ih ha hc
    rw [fitLoop_eq, if_pos h1, if_neg h2]
    exact ih (by omega) hc
  · intro a c h1 ha hc
    rw [fitLoop_eq, if_neg h1]; exact ⟨ha, hc⟩

theorem takeChars_length (s : String) (n : Nat) :
    (takeChars s n).length = min n s.length := by
  show (s.data.take n).length = min n s.data.length
  exact List.length_take n s.data

theorem pad_length (s : String) (w : Int) (hw : 0 ≤ w) :
    ((pad s w).length : Int) = w := by
  have hsp : (" " : String).length = 1 := rfl
  unfold pad
  by_cases h : (s.length : Int) > w
  · rw [if_pos h, takeChars_length]
    omega
  · rw [if_neg h, String.length_append, repeatStr_length, hsp]
    push_cast
    omega

theorem jsRepeat_pos (s : String) (n : Int) (h : 0 ≤ n) :
    jsRepeat s n = some (repeatStr s n.toNat) := by
  simp [jsRepeat, h]

theorem preWidths_nonneg (keys vs : List String) :
    0 ≤ (preWidths keys vs).1 ∧ 0 ≤ (preWidths keys vs).2 := by
  simp only [preWidths]
  exact ⟨Int.natCast_nonneg _, Int.natCast_nonneg _⟩

theorem jsMaxWith_jsMaxLen (l : List Nat) (n : Nat) :
    jsMaxWith (jsMaxLen l) n = max n (l.foldl max 0) := by
  have aux : ∀ (xs : List Nat) (m : Nat),
      xs.foldl (fun acc k => some (match acc with | none => k | some j => max j k))
          (some m) =
        some (xs.foldl max m) := by
    intro xs
    induction xs with
    | nil => intro m; rfl
    | cons y ys ih => intro m; simp [List.foldl, ih]
  cases l with
  | nil => simp [jsMaxLen, jsMaxWith]
  | cons x xs =>
    simp only [jsMaxLen, List.foldl, aux, jsMaxWith]
    rw [Nat.zero_max]
    exact Nat.max_comm _ _

/-- In the non-negative-width case, `renderTable` succeeds and produces the
border, header, separator, data rows and bottom border. -/
theorem renderTable_pos_eq (k v : Int) (hk : 0 ≤ k) (hv : 0 ≤ v)
    (keys vs : List String) :
    renderTable k v keys vs =
      ([repeatStr "_" (k + v + 7).toNat,
        "| " ++ pad "(index)" k ++ " | " ++ pad "Value" v ++ " |",
        "|" ++ repeatStr "-" (k + 2).toNat ++ "|" ++ repeatStr "-" (v + 2).toNat ++ "|"]
        ++ (keys.zip vs).map
            (fun kv => "| " ++ pad kv.1 k ++ " | " ++ pad kv.2 v ++ " |")
        ++ [repeatStr "‾" (k + v + 7).toNat], false) := by
  have h1 : (0 : Int) ≤ k + v + 7 := by omega
  have h2 : (0 : Int) ≤ k + 2 := by omega
  have h3 : (0 : Int) ≤ v + 2 := by omega
  simp [renderTable, jsRepeat, h1, h2, h3]

/-- Lemma: `renderTable` throws no `RangeError` as long as both widths are at least
`-2` (so that every repeat count is non-negative). -/
theorem renderTable_no_throw (k v : Int) (hk : -2 ≤ k) (hv : -2 ≤ v)
    (keys vs : List String) :
    (renderTable k v keys vs).2 = false := by
  have h1 : (0 : Int) ≤ k + v + 7 := by omega
  have h2 : (0 : Int) ≤ k + 2 := by omega
  have h3 : (0 : Int) ≤ v + 2 := by omega
  simp [renderTable, jsRepeat, h1, h2, h3]

/-- Every line produced by `renderTable` with non-negative widths has length
exactly `keyWidth + valueWidth + 7`. -/
theorem renderTable_line_lengths (k v : Int) (hk : 0 ≤ k) (hv : 0 ≤ v)
    (keys vs : List String) :
    (renderTable k v keys vs).1.all
      (fun l => (l.length : Int) == k + v + 7) = true := by
  have hus : ("_" : String).length = 1 := rfl
  have hds : ("-" : String).length = 1 := rfl
  have hos : ("‾" : String).length = 1 := rfl
  have hb1 : ("| " : String).length = 2 := rfl
  have hb2 : (" | " : String).length = 3 := rfl
  have hb3 : (" |" : String).length = 2 := rfl
  have hb4 : ("|" : String).length = 1 := rfl
  rw [renderTable_pos_eq k v hk hv keys vs]
  simp only [List.all_append, List.all_cons, List.all_nil, Bool.and_true,
    Bool.and_eq_true, beq_iff_eq]
  refine ⟨⟨⟨?_, ?_, ?_⟩, ?_⟩, ?_⟩
  · rw [repeatStr_length, hus]
    omega
  · rw [String.length_append, String.length_append, String.length_append,
      String.length_append, hb1, hb2, hb3]
    push_cast
    rw [pad_length _ _ hk, pad_length _ _ hv]
    omega
  · rw [String.length_append, String.length_append, String.length_append,
      String.length_append, hb4, repeatStr_length, repeatStr_length, hds]
    omega
  · rw [List.all_eq_true]
    intro x hx
    rw [List.mem_map] at hx
    obtain ⟨kv, _, hkv⟩ := hx
    rw [← hkv]
    simp only [beq_iff_eq]
    rw [String.length_append, String.length_append, String.length_append,
      String.length_append, hb1, hb2, hb3]
    push_cast
    rw [pad_length _ _ hk, pad_length _ _ hv]
    omega
  · rw [repeatStr_length, hos]
    omega

theorem ownLookup_setOwn_same (cs : List (String × StoredNum)) (l : String)
    (v : StoredNum) : ownLookup (setOwn cs l v) l = some v := by
  induction cs with
  | nil => simp [setOwn, ownLookup]
  | cons p rest ih =>
    by_cases hp : p.1 = l
    · simp [setOwn, hp, ownLookup]
    · simp only [setOwn, beq_iff_eq, hp, if_false]
      simpa [ownLookup, hp] using ih

theorem ownLookup_setOwn_ne (l l' : String) (h : l' ≠ l)
    (cs : List (String × StoredNum)) (v : StoredNum) :
    ownLookup (setOwn cs l v) l' = ownLookup cs l' := by
  induction cs with
  | nil => simp [setOwn, ownLookup, Ne.symm h]
  | cons p rest ih =>
    by_cases hp : p.1 = l
    · simp [setOwn, hp, ownLookup, Ne.symm h]
    · simp only [setOwn, beq_iff_eq, hp, if_false]
      by_cases hp' : p.1 = l'
      · simp [ownLookup, hp']
      · simpa [ownLookup, hp'] using ih

theorem cleanLabel_spec (l : String) (hc : cleanLabel l = true) :
    protoFnNames.contains l = false ∧ (l == "__proto__") = false := by
  simp only [cleanLabel, Bool.and_eq_true, Bool.not_eq_true'] at hc
  exact hc

theorem readCount_clean (l : String) (hc : cleanLabel l = true)
    (cs : List (String × StoredNum)) :
    readCount cs l =
      match ownLookup cs l with
      | some v => CountRead.stored v
      | none => CountRead.undefined := by
  have h1 := cleanLabel_spec l hc
  have hm : l ∉ protoFnNames := by simpa using h1.1
  cases h : ownLookup cs l <;> simp [readCount, h, hm, h1.2]

theorem jsSetCount_clean (l : String) (hc : cleanLabel l = true)
    (cs : List (String × StoredNum)) (v : StoredNum) :
    jsSetCount cs l v = setOwn cs l v := by
  simp [jsSetCount, (cleanLabel_spec l hc).2]

/-- For a label with no inherited `Object.prototype` member, one `count` state
step always leaves the own entry at the previous own count plus one — the
falsy cases (missing, `0`, `NaN`) all pass through the initialisation to `1`. -/
theorem countStep_clean (l : String) (hc : cleanLabel l = true)
    (cs : List (String × StoredNum)) :
    ownLookup (countStep cs l) l = some (StoredNum.num (ownNat cs l + 1)) := by
  simp only [countStep, jsSetCount_clean l hc, readCount_clean l hc]
  cases h : ownLookup cs l with
  | none =>
    simp [h, CountRead.truthy, ownLookup_setOwn_same, CountRead.toNum,
      StoredNum.succ, ownNat]
  | some v =>
    cases v with
    | nan =>
      simp [h, CountRead.truthy, ownLookup_setOwn_same, CountRead.toNum,
        StoredNum.succ, ownNat]
    | num n =>
      cases n with
      | zero =>
        simp [h, CountRead.truthy, ownLookup_setOwn_same, CountRead.toNum,
          StoredNum.succ, ownNat]
      | succ k =>
        simp [h, CountRead.truthy, ownLookup_setOwn_same, CountRead.toNum,
          StoredNum.succ, ownNat]

theorem countShown_clean (l : String) (hc : cleanLabel l = true)
    (cs : List (String × StoredNum)) :
    countShown cs l = toString (ownNat cs l + 1) := by
  rw [countShown, readCount_clean l hc, countStep_clean l hc]
  rfl

/-- A `count` step on one label never touches another label's own entry
(also when the stepped label is `__proto__`, whose writes are discarded). -/
theorem countStep_other (l l' : String) (h : l' ≠ l)
    (cs : List (String × StoredNum)) :
    ownLookup (countStep cs l) l' = ownLookup cs l' := by
  by_cases hp : (l == "__proto__") = true
  · simp [countStep, jsSetCount, hp]
  · have hp' : (l == "__proto__") = false := by
      cases hb : (l == "__proto__")
      · rfl
      · exact absurd hb hp
    by_cases ht : (readCount cs l).truthy
    · simp [countStep, jsSetCount, hp', ht, ownLookup_setOwn_ne l l' h]
    · simp [countStep, jsSetCount, hp', ht, ownLookup_setOwn_ne l l' h]

theorem logLine_groupLevel (fmt : LogType → String → String) (t : LogType)
    (m : String) (st : ConsoleState) :
    (logLine fmt t m st).groupLevel = st.groupLevel := by
  unfold logLine
  split
  · rfl
  · split <;> rfl

theorem logLine_counts (fmt : LogType → String → String) (t : LogType)
    (m : String) (st : ConsoleState) :
    (logLine fmt t m st).counts = st.counts := by
  unfold logLine
  split
  · rfl
  · split <;> rfl

theorem logLine_frozen (fmt : LogType → String → String) (t : LogType)
    (m : String) (st : ConsoleState) (h : st.errored = true) :
    logLine fmt t m st = st := by
  unfold logLine
  rw [h]
  rfl

theorem foldLog_groupLevel (fmt : LogType → String → String) (ls : List String)
    (st : ConsoleState) :
    (ls.foldl (fun s l => leveled fmt .log l s) st).groupLevel = st.groupLevel := by
  induction ls generalizing st with
  | nil => rfl
  | cons l ls ih =>
    rw [List.foldl_cons, ih]
    simp [leveled, logLine_groupLevel]

theorem foldLog_counts (fmt : LogType → String → String) (ls : List String)
    (st : ConsoleState) :
    (ls.foldl (fun s l => leveled fmt .log l s) st).counts = st.counts := by
  induction ls generalizing st with
  | nil => rfl
  | cons l ls ih =>
    rw [List.foldl_cons, ih]
    simp [leveled, logLine_counts]

theorem applyOp_frozen (fmt : LogType → String → String) (w : Int) (op : Op)
    (st : ConsoleState) (h : st.errored = true) :
    applyOp fmt w op st = st := by
  cases op <;>
    simp [applyOp, groupOp, groupCollapsedOp, groupEndOp, leveled, assertOp,
      countOp, tableOp, logLine_frozen, logLine, h]

theorem applyOp_errored_mono (fmt : LogType → String → String) (w : Int)
    (op : Op) (st : ConsoleState) (h : st.errored = true) :
    (applyOp fmt w op st).errored = true := by
  rw [applyOp_frozen fmt w op st h]; exact h

theorem run_nil (fmt : LogType → String → String) (w : Int) (st : ConsoleState) :
    run fmt w [] st = st := rfl

theorem run_cons (fmt : LogType → String → String) (w : Int) (op : Op)
    (ops : List Op) (st : ConsoleState) :
    run fmt w (op :: ops) st = run fmt w ops (applyOp fmt w op st) := rfl

theorem run_append (fmt : LogType → String → String) (w : Int)
    (ops ops' : List Op) (st : ConsoleState) :
    run fmt w (ops ++ ops') st = run fmt w ops' (run fmt w ops st) := by
  simp [run, List.foldl_append]

theorem run_frozen (fmt : LogType → String → String) (w : Int) (ops : List Op)
    (st : ConsoleState) (h : st.errored = true) :
    run fmt w ops st = st := by
  induction ops with
  | nil => rfl
  | cons op ops ih =>
    rw [run_cons, applyOp_frozen fmt w op st h]
    exact ih

theorem run_start_ok (fmt : LogType → String → String) (w : Int) (ops : List Op)
    (st : ConsoleState) (h : (run fmt w ops st).errored = false) :
    st.errored = false := by
  cases he : st.errored
  · rfl
  · rw [run_frozen fmt w ops st he, he] at h
    exact absurd h (by decide)

theorem run_cons_start_ok (fmt : LogType → String → String) (w : Int) (op : Op)
    (ops : List Op) (st : ConsoleState)
    (h : (run fmt w ops (applyOp fmt w op st)).errored = false) :
    st.errored = false := by
  cases he : st.errored
  · rfl
  · have h1 := run_start_ok fmt w ops _ h
    rw [applyOp_errored_mono fmt w op st he] at h1
    exact absurd h1 (by decide)

theorem applyOp_groupLevel (fmt : LogType → String → String) (w : Int) (op : Op)
    (st : ConsoleState) (h : st.errored = false) :
    (applyOp fmt w op st).groupLevel = st.groupLevel + depthOp op := by
  cases op with
  | group label =>
    cases label with
    | none => simp [applyOp, groupOp, h, depthOp]
    | some l =>
      by_cases hl : l ≠ ""
      · simp [applyOp, groupOp, h, depthOp, hl, leveled, logLine_groupLevel]
      · simp [applyOp, groupOp, h, depthOp, hl, leveled, logLine_groupLevel]
  | groupCollapsed label => simp [applyOp, groupCollapsedOp, groupOp, h, depthOp]
  | groupEnd =>
    simp [applyOp, groupEndOp, h, depthOp]
    omega
  | emit t m => simp [applyOp, leveled, logLine_groupLevel, depthOp]
  | assert b m =>
    cases b <;> simp [applyOp, assertOp, h, leveled, logLine_groupLevel, depthOp]
  | count label => simp [applyOp, countOp, h, leveled, logLine_groupLevel, depthOp]
  | table data =>
    simp only [applyOp, tableOp, h, if_false, Bool.false_eq_true]
    split <;> simp [foldLog_groupLevel, depthOp]

theorem applyOp_counts (fmt : LogType → String → String) (w : Int) (op : Op)
    (st : ConsoleState) (l : String) (h : st.errored = false)
    (hc : cleanLabel l = true) :
    ownNat (applyOp fmt w op st).counts l =
      ownNat st.counts l + countsOfOp l op := by
  cases op with
  | group label =>
    cases label with
    | none => simp [applyOp, groupOp, h, countsOfOp]
    | some lab =>
      by_cases hl : lab ≠ ""
      · simp [applyOp, groupOp, h, countsOfOp, hl, leveled, logLine_counts]
      · simp [applyOp, groupOp, h, countsOfOp, hl, leveled, logLine_counts]
  | groupCollapsed label => simp [applyOp, groupCollapsedOp, groupOp, h, countsOfOp]
  | groupEnd => simp [applyOp, groupEndOp, h, countsOfOp]
  | emit t m => simp [applyOp, leveled, logLine_counts, countsOfOp]
  | assert b m =>
    cases b <;> simp [applyOp, assertOp, h, leveled, logLine_counts, countsOfOp]
  | count label =>
    simp only [applyOp, countOp, h, if_false, Bool.false_eq_true,
      logLine_counts]
    by_cases hl : label.getD "<no label>" = l
    · rw [hl, ownNat, countStep_clean l hc]
      simp [countsOfOp, hl]
    · rw [ownNat, countStep_other _ l (fun he => hl he.symm), ← ownNat]
      simp [countsOfOp, hl]
  | table data =>
    simp only [applyOp, tableOp, h, if_false, Bool.false_eq_true]
    split <;> simp [foldLog_counts, countsOfOp]

theorem run_groupLevel (fmt : LogType → String → String) (w : Int)
    (ops : List Op) (st : ConsoleState)
    (h : (run fmt w ops st).errored = false) :
    (run fmt w ops st).groupLevel = st.groupLevel + depth ops := by
  induction ops generalizing st with
  | nil => simp [run_nil, depth]
  | cons op ops ih =>
    rw [run_cons] at h ⊢
    have hst : st.errored = false := run_cons_start_ok fmt w op ops st h
    rw [ih (applyOp fmt w op st) h, applyOp_groupLevel fmt w op st hst]
    simp [depth]
    omega

theorem run_counts (fmt : LogType → String → String) (w : Int)
    (ops : List Op) (st : ConsoleState) (l : String)
    (h : (run fmt w ops st).errored = false) (hc : cleanLabel l = true) :
    ownNat (run fmt w ops st).counts l =
      ownNat st.counts l + countCalls l ops := by
  induction ops generalizing st with
  | nil => simp [run_nil, countCalls]
  | cons op ops ih =>
    rw [run_cons] at h ⊢
    have hst : st.errored = false := run_cons_start_ok fmt w op ops st h
    rw [ih (applyOp fmt w op st) h, applyOp_counts fmt w op st l hst hc]
    simp [countCalls]
    omega

/-- Without `table` calls, and with the group level kept non-negative, no call
of a sequence ever throws. -/
theorem run_no_throw (fmt : LogType → String → String) (w : Int) :
    ∀ (ops : List Op) (st : ConsoleState), noTable ops = true →
      depthsOk st.groupLevel ops = true → st.errored = false →
      (run fmt w ops st).errored = false := by
  intro ops
  induction ops with
  | nil =>
    intro st _ _ he
    simpa [run_nil] using he
  | cons op ops ih =>
    intro st hnt hd he
    rw [run_cons]
    have hd' : 0 ≤ st.groupLevel + depthOp op ∧
        depthsOk (st.groupLevel + depthOp op) ops = true := by
      simpa [depthsOk] using hd
    have hnt2 : noTable ops = true := by
      cases op <;> simp only [noTable] at hnt <;> first | exact hnt | exact absurd hnt (by simp)
    have happ : (applyOp fmt w op st).errored = false := by
      cases op with
      | group label =>
        cases label with
        | none => simp [applyOp, groupOp, he]
        | some l =>
          have hlv : (0 : Int) ≤ st.groupLevel + 1 := by
            have := hd'.1
            simpa [depthOp] using this
          by_cases hl : l ≠ "" <;>
            simp [applyOp, groupOp, he, hl, leveled, logLine,
              generateIndentation, jsRepeat, hlv]
      | groupCollapsed label => simp [applyOp, groupCollapsedOp, groupOp, he]
      | groupEnd => simp [applyOp, groupEndOp, he]
      | emit t m =>
        have hlv : (0 : Int) ≤ st.groupLevel := by
          have := hd'.1
          simpa [depthOp] using this
        simp [applyOp, leveled, logLine, he, generateIndentation, jsRepeat, hlv]
      | assert b m =>
        have hlv : (0 : Int) ≤ st.groupLevel := by
          have := hd'.1
          simpa [depthOp] using this
        cases b <;>
          simp [applyOp, assertOp, he, leveled, logLine, generateIndentation,
            jsRepeat, hlv]
      | count label =>
        have hlv : (0 : Int) ≤ st.groupLevel := by
          have := hd'.1
          simpa [depthOp] using this
        simp [applyOp, countOp, he, leveled, logLine, generateIndentation,
          jsRepeat, hlv]
      | table d => exact absurd hnt (by simp [noTable])
    have hlvl : (applyOp fmt w op st).groupLevel = st.groupLevel + depthOp op :=
      applyOp_groupLevel fmt w op st he
    exact ih (applyOp fmt w op st) hnt2 (by rw [hlvl]; exact hd'.2) happ

/-! ### Claim theorems -/

/-- C1: for every boolean condition and message, `assert` with a falsy
condition behaves exactly as `log` — it emits one log-level line, indented as
`log` would indent it, and leaves `groupLevel` and `counts` unchanged — and
`assert` with a truthy condition emits nothing and changes no state.  (Stated
at a non-errored state with a non-negative group level, where a `log` line can
actually be rendered.) -/
theorem assert_falsy_logs_c1 (fmt : LogType → String → String)
    (st : ConsoleState) (message : String)
    (h1 : st.errored = false) (h2 : 0 ≤ st.groupLevel) :
    assertOp fmt true message st = st ∧
    assertOp fmt false message st = leveled fmt .log message st ∧
    (assertOp fmt false message st).output =
      st.output ++
        [(LogType.log, repeatStr "> " st.groupLevel.toNat ++ fmt .log message)] ∧
    (assertOp fmt false message st).groupLevel = st.groupLevel ∧
    (assertOp fmt false message st).counts = st.counts := by
  refine ⟨?_, ?_, ?_, ?_, ?_⟩
  · simp [assertOp, h1]
  · simp [assertOp, h1]
  · simp [assertOp, h1, leveled, logLine, generateIndentation, jsRepeat, h2]
  · simp [assertOp, h1, leveled, logLine_groupLevel]
  · simp [assertOp, h1, leveled, logLine_counts]

theorem assert_falsy_logs_c1_witness :
    assertOp idFmt true "x" initState = initState ∧
    (assertOp idFmt false "x" initState).output = [(LogType.log, "x")] := by
  have h := assert_falsy_logs_c1 idFmt initState "x" rfl (by decide)
  refine ⟨h.1, ?_⟩
  rw [h.2.2.1]
  decide

/-- C3: after any sequence of calls, a `log`/`info`/`warn`/`error` call
appends exactly one line prefixed with `"> "` repeated
(number of `group`/`groupCollapsed` calls − number of `groupEnd` calls) times
followed by the (formatted) message and nothing else — whenever that
difference is non-negative and no earlier call already threw; otherwise the
negative repeat count throws and no line is emitted at all. -/
theorem indentation_is_depth_c3 (fmt : LogType → String → String) (w : Int)
    (ops : List Op) (t : LogType) (message : String) :
    (run fmt w (ops ++ [Op.emit t message]) initState).output =
      (run fmt w ops initState).output ++
        (if (run fmt w ops initState).errored = false ∧ 0 ≤ depth ops then
          [(t, repeatStr "> " (depth ops).toNat ++ fmt t message)]
        else []) := by
  rw [run_append]
  cases he : (run fmt w ops initState).errored with
  | true =>
    rw [run_cons, run_nil]
    simp [applyOp, leveled, logLine_frozen _ _ _ _ he, he]
  | false =>
    have hlvl : (run fmt w ops initState).groupLevel = depth ops := by
      have h0 := run_groupLevel fmt w ops initState he
      simpa [initState] using h0
    rw [run_cons, run_nil]
    by_cases hd : 0 ≤ depth ops
    · simp [applyOp, leveled, logLine, he, hlvl, generateIndentation, jsRepeat, hd]
    · simp [applyOp, leveled, logLine, he, hlvl, generateIndentation, jsRepeat, hd]

theorem indentation_is_depth_c3_witness :
    (run idFmt 80 ([Op.group none, Op.group none, Op.groupEnd] ++
        [Op.emit LogType.log "m"]) initState).output =
      [(LogType.log, "> m")] := by
  rw [indentation_is_depth_c3 idFmt 80 [Op.group none, Op.group none, Op.groupEnd]
    LogType.log "m"]
  decide

/-- C4 (amended): for every label string that names no `Object.prototype`
member (the default `"<no label>"` included), the stored count always equals
the number of `count` calls so far with exactly that label — independent of
interleaved calls with other labels and never reset — so the N-th `count(L)`
call stores `N` (as the own property of `L`) and emits the log-level line
`"L: N"` (at the current indentation, through the formatter), leaving every
other label's own entry unchanged.  A label naming an inherited member
(`"toString"`, …) reads the truthy inherited value instead: its first call
stores `NaN` and emits `"L: NaN"`, and the progression restarts at `1` from
the second call; for `"__proto__"` nothing is ever stored and every call
emits `"__proto__: [object Object]"` (see the counterexample). -/
theorem count_progression_c4 (fmt : LogType → String → String) (w : Int)
    (ops : List Op) (lab : Option String) (l' : String)
    (h : (run fmt w ops initState).errored = false)
    (hc : cleanLabel (lab.getD "<no label>") = true)
    (hne : l' ≠ lab.getD "<no label>") :
    ownNat (run fmt w ops initState).counts (lab.getD "<no label>") =
      countCalls (lab.getD "<no label>") ops ∧
    ownLookup (run fmt w (ops ++ [Op.count lab]) initState).counts
        (lab.getD "<no label>") =
      some (StoredNum.num (countCalls (lab.getD "<no label>") ops + 1)) ∧
    ownLookup (run fmt w (ops ++ [Op.count lab]) initState).counts l' =
      ownLookup (run fmt w ops initState).counts l' ∧
    (run fmt w (ops ++ [Op.count lab]) initState).output =
      (run fmt w ops initState).output ++
        (if 0 ≤ (run fmt w ops initState).groupLevel then
          [(LogType.log,
            repeatStr "> " (run fmt w ops initState).groupLevel.toNat ++
              fmt .log (lab.getD "<no label>" ++ ": " ++
                toString (countCalls (lab.getD "<no label>") ops + 1)))]
        else []) := by
  have h1 : ownNat (run fmt w ops initState).counts (lab.getD "<no label>") =
      countCalls (lab.getD "<no label>") ops := by
    have h0 := run_counts fmt w ops initState (lab.getD "<no label>") h hc
    simpa [initState, ownNat, ownLookup] using h0
  refine ⟨h1, ?_, ?_, ?_⟩
  · rw [run_append, run_cons, run_nil]
    simp only [applyOp, countOp, h, Bool.false_eq_true, if_false,
      logLine_counts]
    rw [countStep_clean _ hc, h1]
  · rw [run_append, run_cons, run_nil]
    simp only [applyOp, countOp, h, Bool.false_eq_true, if_false,
      logLine_counts]
    exact countStep_other _ _ hne _
  · rw [run_append, run_cons, run_nil]
    simp only [applyOp, countOp, h, Bool.false_eq_true, if_false]
    rw [countShown_clean _ hc, h1]
    by_cases hd : 0 ≤ (run fmt w ops initState).groupLevel
    · simp [logLine, generateIndentation, jsRepeat, hd]
    · simp [logLine, generateIndentation, jsRepeat, hd]

theorem count_progression_c4_witness :
    ownLookup (run idFmt 80 ([Op.count (some "a"), Op.count none] ++
        [Op.count (some "a")]) initState).counts "a" =
      some (StoredNum.num 2) ∧
    (run idFmt 80 ([Op.count (some "a"), Op.count none] ++
        [Op.count (some "a")]) initState).output =
      (run idFmt 80 [Op.count (some "a"), Op.count none] initState).output ++
        [(LogType.log, "a: 2")] := by
  have h := count_progression_c4 idFmt 80 [Op.count (some "a"), Op.count none]
    (some "a") "b" (by decide) (by decide) (by decide)
  constructor
  · have h2 := h.2.1
    rw [show (some "a").getD "<no label>" = "a" from rfl] at h2
    rw [h2]
    decide
  · rw [h.2.2.2]
    decide

/-- C4 counterexample: for the label `"toString"` — a member name inherited
from `Object.prototype` by the plain `_counts` object — the first `count`
call reads the inherited function (truthy), skips the initialisation, stores
`NaN` and emits `"toString: NaN"` instead of the claimed `"toString: 1"`; the
second call then finds the falsy `NaN`, resets, and emits `"toString: 1"`,
refuting both the `1, 2, 3, …` progression and that counters are never
reset.  For `"__proto__"` the inherited setter discards the write: nothing is
ever stored and every call emits `"__proto__: [object Object]"`. -/
theorem count_proto_label_c4_cex :
    (countOp idFmt (some "toString") initState).output =
      [(LogType.log, "toString: NaN")] ∧
    (countOp idFmt (some "toString")
        (countOp idFmt (some "toString") initState)).output =
      [(LogType.log, "toString: NaN"), (LogType.log, "toString: 1")] ∧
    (countOp idFmt (some "__proto__") initState).output =
      [(LogType.log, "__proto__: [object Object]")] ∧
    (countOp idFmt (some "__proto__") initState).counts = [] := by
  decide

/-- C6 (amended): `groupCollapsed` takes no parameter in the source, so any
label argument is discarded: for every label and state it is exactly
`group()` with no label — the same `groupLevel` increment as `group(label)`
and the same `counts`, but no output at all, even when a label is supplied
(where `group(label)` would log the label). -/
theorem groupCollapsed_ignores_label_c6 (fmt : LogType → String → String)
    (label : Option String) (st : ConsoleState) :
    groupCollapsedOp fmt label st = groupOp fmt none st ∧
    (groupCollapsedOp fmt label st).groupLevel =
      (groupOp fmt label st).groupLevel ∧
    (groupCollapsedOp fmt label st).counts = (groupOp fmt label st).counts ∧
    (groupCollapsedOp fmt label st).output = st.output := by
  refine ⟨rfl, ?_, ?_, ?_⟩
  · cases he : st.errored with
    | true => simp [groupCollapsedOp, groupOp, he]
    | false =>
      cases label with
      | none => simp [groupCollapsedOp, groupOp, he]
      | some l =>
        by_cases hl : l ≠ "" <;>
          simp [groupCollapsedOp, groupOp, he, hl, leveled, logLine_groupLevel]
  · cases he : st.errored with
    | true => simp [groupCollapsedOp, groupOp, he]
    | false =>
      cases label with
      | none => simp [groupCollapsedOp, groupOp, he]
      | some l =>
        by_cases hl : l ≠ "" <;>
          simp [groupCollapsedOp, groupOp, he, hl, leveled, logLine_counts]
  · cases he : st.errored with
    | true => simp [groupCollapsedOp, groupOp, he]
    | false => simp [groupCollapsedOp, groupOp, he]

/-- C6 counterexample: `groupCollapsed("x")` is not behaviorally identical to
`group("x")` — the former emits nothing where the latter logs the label. -/
theorem groupCollapsed_ignores_label_c6_cex :
    groupCollapsedOp idFmt (some "x") initState ≠
      groupOp idFmt (some "x") initState := by
  decide

/-- C8: `table` on any non-object input (`null`, `undefined`, a number, a
string, a boolean) is a silent no-op: the state — output included — is
returned unchanged and nothing is thrown. -/
theorem table_primitive_noop_c8 (fmt : LogType → String → String) (w : Int)
    (st : ConsoleState) (n : Int) (s : String) (b : Bool) :
    applyOp fmt w (Op.table JSValue.null) st = st ∧
    applyOp fmt w (Op.table JSValue.undefined) st = st ∧
    applyOp fmt w (Op.table (JSValue.num n)) st = st ∧
    applyOp fmt w (Op.table (JSValue.str s)) st = st ∧
    applyOp fmt w (Op.table (JSValue.bool b)) st = st := by
  refine ⟨?_, ?_, ?_, ?_, ?_⟩ <;>
    cases he : st.errored <;>
      simp [applyOp, tableOp, tableLines, he]

/-- C2 counterexample: at the positive output width `6` and the empty
collection (pre-fit widths `7` and `5`), the fitting loop drives the key
width to `-1`: the loop has no bottom-out at the header-label lengths, so a
positive `outputWidth` below `7` produces a negative column width. -/
theorem fit_negative_width_c2_cex :
    tableWidthsFrom 6 [] [] = (-1, 0) ∧ (tableWidthsFrom 6 [] []).1 < 0 := by
  have h2 : tableWidthsFrom 6 [] [] = fitLoop 6 7 5 := rfl
  have h1 : tableWidthsFrom 6 [] [] = (-1, 0) := by
    rw [h2]
    repeat (rw [fitLoop_eq]; norm_num)
  exact ⟨h1, by rw [h1]; norm_num⟩

/-- C2 (amended): for every input collection and every `outputWidth ≥ 7`, the
width-fitting loop never produces a negative `keyWidth` or `valueWidth`, and
the resulting `totalWidth = keyWidth + valueWidth + 7` is at most
`outputWidth` (the loop only exits once it fits; there is no bottom-out at
the header-label lengths — widths below `7` and `5` are reached whenever the
window demands it). -/
theorem fit_widths_safe_c2 (o : Int) (keys vs : List String) (h : 7 ≤ o) :
    0 ≤ (tableWidthsFrom o keys vs).1 ∧ 0 ≤ (tableWidthsFrom o keys vs).2 ∧
    (tableWidthsFrom o keys vs).1 + (tableWidthsFrom o keys vs).2 + 7 ≤ o := by
  have hpre := preWidths_nonneg keys vs
  have hlb := fitLoop_lb 0 o (by omega) (preWidths keys vs).1
    (preWidths keys vs).2 hpre.1 hpre.2
  exact ⟨hlb.1, hlb.2, fitLoop_total_le o _ _⟩

theorem fit_widths_safe_c2_witness :
    0 ≤ (tableWidthsFrom 80 [] []).1 ∧ 0 ≤ (tableWidthsFrom 80 [] []).2 ∧
    (tableWidthsFrom 80 [] []).1 + (tableWidthsFrom 80 [] []).2 + 7 ≤ 80 :=
  fit_widths_safe_c2 80 [] [] (by norm_num)

/-- C5 counterexample: `table` is not total on its documented domain —
`table([undefined])` throws a `TypeError` (`JSON.stringify(undefined)` is
`undefined`, and `.replace` is then called on it), and even on a well-formed
empty collection `table` throws a `RangeError` at the positive output width
`2` (the separator's repeat count `keyWidth + 2` goes negative). -/
theorem table_throws_c5_cex :
    (tableLines 80 (JSValue.arr [JSValue.undefined])).2 = true ∧
    (tableLines 2 (JSValue.arr [])).2 = true := by
  constructor
  · rfl
  · have h2 : tableWidthsFrom 2 [] [] = fitLoop 2 7 5 := rfl
    have h1 : tableWidthsFrom 2 [] [] = (-3, -2) := by
      rw [h2]
      repeat (rw [fitLoop_eq]; norm_num)
    have h3 : tableLines 2 (JSValue.arr []) =
        renderTable (tableWidthsFrom 2 [] []).1 (tableWidthsFrom 2 [] []).2
          [] [] := rfl
    rw [h3, h1]
    rfl

/-- C5 (amended): `table` completes without throwing on any object or array
input whose values all stringify to a defined JSON encoding, provided the
output width is at least `3`; and every other operation never fails on any
call sequence that keeps the group level non-negative (where the indentation
`repeat` count stays valid). -/
theorem table_totality_c5 :
    (∀ (o : Int) (data : JSValue) (vs : List String), 3 ≤ o →
        (tableValues data).mapM stringify = some vs →
        (tableLines o data).2 = false) ∧
    (∀ (fmt : LogType → String → String) (w : Int) (ops : List Op),
        noTable ops = true → depthsOk 0 ops = true →
        (run fmt w ops initState).errored = false) := by
  constructor
  · intro o data vs ho hvs
    cases data with
    | null => rfl
    | undefined => rfl
    | bool b => rfl
    | num n => rfl
    | str s => rfl
    | arr es =>
      have hpre := preWidths_nonneg (tableKeys (JSValue.arr es)) vs
      have hlb := fitLoop_lb (-2) o (by omega)
        (preWidths (tableKeys (JSValue.arr es)) vs).1
        (preWidths (tableKeys (JSValue.arr es)) vs).2
        (by have := hpre.1; omega) (by have := hpre.2; omega)
      simp only [tableLines, hvs]
      exact renderTable_no_throw _ _ hlb.1 hlb.2 _ _
    | obj fs =>
      have hpre := preWidths_nonneg (tableKeys (JSValue.obj fs)) vs
      have hlb := fitLoop_lb (-2) o (by omega)
        (preWidths (tableKeys (JSValue.obj fs)) vs).1
        (preWidths (tableKeys (JSValue.obj fs)) vs).2
        (by have := hpre.1; omega) (by have := hpre.2; omega)
      simp only [tableLines, hvs]
      exact renderTable_no_throw _ _ hlb.1 hlb.2 _ _
  · intro fmt w ops hnt hd
    exact run_no_throw fmt w ops initState hnt hd rfl

theorem table_totality_c5_witness :
    (tableLines 80 (JSValue.arr [JSValue.num 4])).2 = false ∧
    (run idFmt 80 [Op.group (some "g"), Op.emit LogType.log "x", Op.groupEnd]
        initState).errored = false := by
  constructor
  · exact table_totality_c5.1 80 (JSValue.arr [JSValue.num 4]) ["4"]
      (by norm_num) rfl
  · exact table_totality_c5.2 idFmt 80
      [Op.group (some "g"), Op.emit LogType.log "x", Op.groupEnd] rfl (by decide)

/-- C7: the key-column width measures the raw length of each key string
(no quoting or stringification), while the value-column width measures the
length of the value's structural compact-JSON encoding; each is floored at
its header label's length (`"(index)"` and `"Value"`). -/
theorem width_sources_c7 (data : JSValue) (vs : List String)
    (hvs : (tableValues data).mapM stringify = some vs) :
    (preWidths (tableKeys data) vs).1 = (specKeyWidth (tableKeys data) : Int) ∧
    (preWidths (tableKeys data) vs).2 = (specValueWidth vs : Int) := by
  constructor
  · simp only [preWidths, specKeyWidth]
    exact_mod_cast jsMaxWith_jsMaxLen _ _
  · simp only [preWidths, specValueWidth]
    exact_mod_cast jsMaxWith_jsMaxLen _ _

theorem width_sources_c7_witness :
    (preWidths (tableKeys (JSValue.obj [("abc", JSValue.str "abc")]))
        ["\"abc\""]).1 =
      (specKeyWidth (tableKeys (JSValue.obj [("abc", JSValue.str "abc")])) : Int) ∧
    (preWidths (tableKeys (JSValue.obj [("abc", JSValue.str "abc")]))
        ["\"abc\""]).2 =
      (specValueWidth ["\"abc\""] : Int) :=
  width_sources_c7 (JSValue.obj [("abc", JSValue.str "abc")]) ["\"abc\""] rfl

/-- C9: on an empty collection (`[]` or an empty object) and a window of at
least the natural total width `19`, `table` emits exactly 4 lines — top
border, header row, separator row, bottom border — with zero data rows, the
header being `"| (index) | Value |"` with both cells at the header-minimum
column widths. -/
theorem table_empty_c9 (o : Int) (h : 19 ≤ o) :
    tableLines o (JSValue.arr []) =
      (["___________________", "| (index) | Value |", "|---------|-------|",
        "‾‾‾‾‾‾‾‾‾‾‾‾‾‾‾‾‾‾‾"], false) ∧
    tableLines o (JSValue.obj []) =
      (["___________________", "| (index) | Value |", "|---------|-------|",
        "‾‾‾‾‾‾‾‾‾‾‾‾‾‾‾‾‾‾‾"], false) := by
  have hfit : fitLoop o 7 5 = (7, 5) := by
    rw [fitLoop_eq, if_neg (by omega)]
  constructor
  · have h3 : tableLines o (JSValue.arr []) =
        renderTable (fitLoop o 7 5).1 (fitLoop o 7 5).2 [] [] := rfl
    rw [h3, hfit]
    rfl
  · have h3 : tableLines o (JSValue.obj []) =
        renderTable (fitLoop o 7 5).1 (fitLoop o 7 5).2 [] [] := rfl
    rw [h3, hfit]
    rfl

theorem table_empty_c9_witness :
    tableLines 80 (JSValue.arr []) =
      (["___________________", "| (index) | Value |", "|---------|-------|",
        "‾‾‾‾‾‾‾‾‾‾‾‾‾‾‾‾‾‾‾"], false) ∧
    tableLines 80 (JSValue.obj []) =
      (["___________________", "| (index) | Value |", "|---------|-------|",
        "‾‾‾‾‾‾‾‾‾‾‾‾‾‾‾‾‾‾‾"], false) :=
  table_empty_c9 80 (by norm_num)

/-- C10: whenever the fitted column widths are both non-negative, every line
`table` emits — top border, header, separator, every data row and bottom
border — has length exactly `keyWidth + valueWidth + 7`, because `pad`
always returns a string of exactly the requested width. -/
theorem table_line_length_c10 (o : Int) (data : JSValue) (vs : List String)
    (hvs : (tableValues data).mapM stringify = some vs)
    (hk : 0 ≤ (tableWidthsFrom o (tableKeys data) vs).1)
    (hv : 0 ≤ (tableWidthsFrom o (tableKeys data) vs).2) :
    (tableLines o data).1.all
      (fun l => (l.length : Int) ==
        (tableWidthsFrom o (tableKeys data) vs).1 +
          (tableWidthsFrom o (tableKeys data) vs).2 + 7) = true := by
  cases data with
  | null => rfl
  | undefined => rfl
  | bool b => rfl
  | num n => rfl
  | str s => rfl
  | arr es =>
    simp only [tableLines, hvs]
    exact renderTable_line_lengths _ _ hk hv _ _
  | obj fs =>
    simp only [tableLines, hvs]
    exact renderTable_line_lengths _ _ hk hv _ _

theorem table_line_length_c10_witness :
    (tableLines 80 (JSValue.arr [JSValue.num 4])).1.all
      (fun l => (l.length : Int) ==
        (tableWidthsFrom 80 (tableKeys (JSValue.arr [JSValue.num 4])) ["4"]).1 +
          (tableWidthsFrom 80 (tableKeys (JSValue.arr [JSValue.num 4]))
            ["4"]).2 + 7) = true := by
  have hw : tableWidthsFrom 80 (tableKeys (JSValue.arr [JSValue.num 4])) ["4"] =
      ((7 : Int), (5 : Int)) := by
    rw [show tableWidthsFrom 80 (tableKeys (JSValue.arr [JSValue.num 4])) ["4"] =
      fitLoop 80 7 5 from rfl]
    rw [fitLoop_eq, if_neg (by norm_num)]
  exact table_line_length_c10 80 (JSValue.arr [JSValue.num 4]) ["4"] rfl
    (by rw [hw]; norm_num) (by rw [hw]; norm_num)

end JestConsole
